import Mathlib

/-!
Verification development for the stock-comparison service (`app.py`).

The pipeline of the `/compare_stocks` endpoint is embedded shallowly:

* request validation (presence of the two tickers and the period,
  membership of the period in the fixed allow-list);
* price-column selection from the raw fetch result (`Adj Close`
  preferred over `Close`, a two-level column structure indexed first by
  value field and then by ticker);
* alignment of the two series by inner join on the date index with
  missing values dropped (`pd.concat(..., axis=1).dropna()`);
* the statistics stage (Pearson correlation, spread, z-score of the
  spread) and the threshold signal classifier;
* response assembly, with the NaN-coercion applied to the correlation.

Prices are modelled as exact rationals.  Values that the source computes
with floating-point division and square roots (standard deviation,
z-scores, correlation) are modelled by the type `PF`, a real number
together with the IEEE special values NaN and signed infinity, with the
IEEE rules for the operations the source uses (`0/0 = NaN`,
`x/0 = ±inf` for `x ≠ 0`, any operation on NaN gives NaN, comparisons
with NaN are false).  Rounding of floating-point arithmetic is not
modelled: arithmetic is exact.
-/

namespace StockCompare

/-- A calendar date encoded as the natural number `yyyy*10000 + mm*100 + dd`;
the numeric order coincides with chronological order. -/
abbrev Date := Nat

/-- Two-digit zero-padded print of a month or day number. -/
def fmtNat2 (n : Nat) : String :=
  if n < 10 then "0" ++ toString n else toString n

/-- Models `DatetimeIndex.strftime("%Y-%m-%d")` on the encoded date. -/
def fmtDate (d : Date) : String :=
  toString (d / 10000) ++ "-" ++ fmtNat2 (d / 100 % 100) ++ "-" ++ fmtNat2 (d % 100)

/-- A date-indexed value column of the fetched table; `none` models a
missing (NaN) cell. -/
abbrev Col := List (Date × Option ℚ)

/-- Result of indexing a pandas frame by a column name: a `Series` when the
name matches exactly one column, a sub-`DataFrame` when it matches several. -/
inductive Selected where
  | series (c : Col)
  | frame
deriving DecidableEq

instance colDEq : DecidableEq Col := inferInstance

instance colsDEq : DecidableEq (List (String × Col)) := inferInstance

instance multiDEq : DecidableEq (List (String × List (String × Col))) := inferInstance

/-- The shape returned by the external market-data fetch: either a
single-level column table (name to column), or a two-level one
(value field to (ticker to column)), as distinguished by the
`isinstance(df.columns, pd.MultiIndex)` test in the source. -/
inductive RawFetchResult where
  | single (cols : List (String × Col))
  | multi (cols : List (String × List (String × Col)))
deriving DecidableEq

/-- All columns stored under a given name, in order (pandas keeps
duplicate column labels). -/
def matchesOf (name : String) (cols : List (String × Col)) : List Col :=
  cols.filterMap (fun p => if p.1 = name then some p.2 else none)

/-- Models `frame[key]`: no matching column raises `KeyError` (the error
value carries the missing key), one match gives a `Series`, several give a
`DataFrame`. -/
def pickUnique (key : String) : List Col → Except String Selected
  | [] => Except.error key
  | [c] => Except.ok (Selected.series c)
  | _ :: _ :: _ => Except.ok Selected.frame

/-- Models `df_raw[field][ticker]` on a two-level column structure. -/
def pickMulti (field ticker : String) (cols : List (String × List (String × Col))) :
    Except String Selected :=
  match cols.lookup field with
  | none => Except.error field
  | some sub => pickUnique ticker (matchesOf ticker sub)

/-- The level-0 labels of the column structure (`df.columns` for a
single-level frame, `df.columns.levels[0]` for a two-level one). -/
def fieldsOf : RawFetchResult → List String
  | RawFetchResult.single cols => cols.map Prod.fst
  | RawFetchResult.multi cols => cols.map Prod.fst

/-- Lines 30-33 / 38-41 of the source: select the price column for one
ticker, preferring the `Adj Close` field when it is present among the
level-0 labels and falling back to `Close` otherwise; a missing fallback
key raises `KeyError`. -/
def selectPrice (r : RawFetchResult) (ticker : String) : Except String Selected :=
  match r with
  | RawFetchResult.single cols =>
      if "Adj Close" ∈ cols.map Prod.fst then
        pickUnique "Adj Close" (matchesOf "Adj Close" cols)
      else
        pickUnique "Close" (matchesOf "Close" cols)
  | RawFetchResult.multi cols =>
      if "Adj Close" ∈ cols.map Prod.fst then
        pickMulti "Adj Close" ticker cols
      else
        pickMulti "Close" ticker cols

/-- The rows of a column that carry an actual value. -/
def dropNone (c : Col) : List (Date × ℚ) :=
  c.filterMap (fun p => p.2.map (fun v => (p.1, v)))

/-- Line 46 of the source, `pd.concat([df1, df2], axis=1).dropna()`, on
series with increasing date indices: keep, in the order of the first
series, every date at which both series carry a value. -/
def align (c1 c2 : Col) : List (Date × ℚ × ℚ) :=
  (dropNone c1).filterMap
    (fun p => ((dropNone c2).lookup p.1).map (fun y => (p.1, p.2, y)))

/-- Arithmetic mean, as `pandas.Series.mean` (the empty case is unreachable
in the pipeline, the aligned table being checked non-empty first). -/
def meanQ (l : List ℚ) : ℚ :=
  l.sum / l.length

/-- Sample variance with `ddof = 1`, the square of `pandas.Series.std`;
consulted only behind the `length < 2` guard of `varPF`. -/
def svarQ (l : List ℚ) : ℚ :=
  ((l.map (fun x => (x - meanQ l) ^ 2)).sum) / ((l.length : ℚ) - 1)

/-- Sample covariance with `ddof = 1` over paired observations. -/
def scovQ (xs ys : List ℚ) : ℚ :=
  ((List.zipWith (fun x y => (x - meanQ xs) * (y - meanQ ys)) xs ys).sum) /
    ((xs.length : ℚ) - 1)

/-- A double as the pipeline sees it: NaN, a signed infinity, or a real
value (arithmetic modelled exactly, without rounding). -/
inductive PF where
  | nan : PF
  | inf (pos : Bool) : PF
  | val (x : ℝ) : PF

/-- IEEE division on `PF`. -/
noncomputable def fdiv : PF → PF → PF
  | PF.nan, _ => PF.nan
  | PF.inf _, PF.nan => PF.nan
  | PF.inf _, PF.inf _ => PF.nan
  | PF.inf p, PF.val b => if b < 0 then PF.inf (!p) else PF.inf p
  | PF.val _, PF.nan => PF.nan
  | PF.val _, PF.inf _ => PF.val 0
  | PF.val a, PF.val b =>
      if b = 0 then
        if a = 0 then PF.nan else if 0 < a then PF.inf true else PF.inf false
      else PF.val (a / b)

/-- IEEE multiplication on `PF`. -/
noncomputable def fmul : PF → PF → PF
  | PF.nan, _ => PF.nan
  | PF.inf _, PF.nan => PF.nan
  | PF.val _, PF.nan => PF.nan
  | PF.inf p, PF.inf q => PF.inf (p == q)
  | PF.inf p, PF.val b => if b = 0 then PF.nan else if 0 < b then PF.inf p else PF.inf (!p)
  | PF.val a, PF.inf q => if a = 0 then PF.nan else if 0 < a then PF.inf q else PF.inf (!q)
  | PF.val a, PF.val b => PF.val (a * b)

/-- IEEE square root on `PF` (negative arguments give NaN). -/
noncomputable def fsqrt : PF → PF
  | PF.nan => PF.nan
  | PF.inf p => if p then PF.inf true else PF.nan
  | PF.val x => if x < 0 then PF.nan else PF.val (Real.sqrt x)

/-- IEEE negation on `PF`. -/
noncomputable def fneg : PF → PF
  | PF.nan => PF.nan
  | PF.inf p => PF.inf (!p)
  | PF.val x => PF.val (-x)

/-- IEEE absolute value on `PF`. -/
noncomputable def fabs : PF → PF
  | PF.nan => PF.nan
  | PF.inf _ => PF.inf true
  | PF.val x => PF.val |x|

/-- Whether the value is NaN (the only non-finite value the pipeline in
fact produces). -/
def PF.isNaN : PF → Bool
  | PF.nan => true
  | _ => false

/-- Whether the value is a signed infinity. -/
def PF.isInf : PF → Bool
  | PF.inf _ => true
  | _ => false

/-- The comparison `c < a` as Python evaluates it on floats: false when
`a` is NaN, decided by the sign when `a` is infinite. -/
def gtR (a : PF) (c : ℝ) : Prop :=
  match a with
  | PF.nan => False
  | PF.inf p => p = true
  | PF.val x => c < x

/-- The value used for signal classification: the real carried by the
float, with the non-finite cases collapsed to `0`. -/
def zEffOf : PF → ℝ
  | PF.val x => x
  | _ => 0

/-- `pandas.Series.cov` of two equal-length series: NaN below two
observations. -/
noncomputable def covPF (xs ys : List ℚ) : PF :=
  if xs.length < 2 ∨ ys.length < 2 then PF.nan else PF.val ((scovQ xs ys : ℚ) : ℝ)

/-- Sample variance as a float: NaN below two observations. -/
noncomputable def varPF (l : List ℚ) : PF :=
  if l.length < 2 then PF.nan else PF.val ((svarQ l : ℚ) : ℝ)

/-- `pandas.Series.std`: the square root of the sample variance. -/
noncomputable def stdPF (l : List ℚ) : PF :=
  fsqrt (varPF l)

/-- Line 52 of the source, `df[stock1].corr(df[stock2])`: the sample
covariance divided by the product of the sample standard deviations
(`ddof` cancels; NaN when fewer than two rows or when a column is
constant). -/
noncomputable def corrPF (xs ys : List ℚ) : PF :=
  fdiv (covPF xs ys) (fmul (stdPF xs) (stdPF ys))

/-- Line 54 of the source, `(spread - spread.mean()) / spread.std()`:
one global mean and standard deviation applied to every point. -/
noncomputable def zScores (spread : List ℚ) : List PF :=
  spread.map (fun s => fdiv (PF.val ((s - meanQ spread : ℚ) : ℝ)) (stdPF spread))

/-- First price column of the aligned table. -/
def col1 (df : List (Date × ℚ × ℚ)) : List ℚ :=
  df.map (fun r => r.2.1)

/-- Second price column of the aligned table. -/
def col2 (df : List (Date × ℚ × ℚ)) : List ℚ :=
  df.map (fun r => r.2.2)

/-- Line 53 of the source, `df[stock1] - df[stock2]`. -/
def spreadOfTable (df : List (Date × ℚ × ℚ)) : List ℚ :=
  df.map (fun r => r.2.1 - r.2.2)

/-- Line 56 of the source, `z_score.iloc[-1] if not z_score.empty else 0`. -/
noncomputable def latestZ (df : List (Date × ℚ × ℚ)) : PF :=
  match (zScores (spreadOfTable df)).getLast? with
  | some z => z
  | none => PF.val 0

open Classical in
/-- Lines 57-59 of the source: the threshold signal. -/
noncomputable def signalFromZ (s1 s2 : String) (z : PF) : Option String :=
  if gtR (fabs z) 2 then
    some (if gtR z 2 then "Trade: Short " ++ s1 ++ ", Long " ++ s2
          else "Trade: Long " ++ s1 ++ ", Short " ++ s2)
  else none

/-- The successful response body (line 61-69 of the source). -/
structure CompareOk where
  correlation : PF
  dates : List String
  stock1_prices : List ℚ
  stock2_prices : List ℚ
  spread : List ℚ
  z_score : List PF
  signal : Option String

/-- The endpoint response: the body on success, or an error message with
its HTTP classification. -/
inductive Resp where
  | ok (r : CompareOk)
  | badRequest (msg : String)
  | notFound (msg : String)
  | internalError (msg : String)

/-- Line 62 of the source, `float(c) if not pd.isna(c) else 0.0`: NaN is
coerced to `0.0`; every other value (infinities included, since
`pd.isna` is false on them) passes through. -/
def coerceNaN : PF → PF
  | PF.nan => PF.val 0
  | c => c

/-- Lines 50-69 of the source: everything after the aligned table is
built and renamed.  When the two tickers coincide, `df.columns =
[stock1, stock2]` gives both columns the same label, `df[stock1]`
returns a two-column frame, and the subsequent `.corr` call raises; the
`except` handler turns that into the 500 response (the exception text of
the numeric library is not modelled). -/
noncomputable def statsStage (s1 s2 : String) (df : List (Date × ℚ × ℚ)) : Resp :=
  if s1 = s2 then
    Resp.internalError "Internal server error: duplicate column selection is ambiguous"
  else
    Resp.ok
      { correlation := coerceNaN (corrPF (col1 df) (col2 df))
        dates := df.map (fun r => fmtDate r.1)
        stock1_prices := col1 df
        stock2_prices := col2 df
        spread := spreadOfTable df
        z_score := zScores (spreadOfTable df)
        signal := signalFromZ s1 s2 (latestZ df) }

/-- Lines 43-69 of the source: the emptiness / `Series` check, the
alignment with its overlap check, then the statistics stage. -/
noncomputable def afterSelect (s1 s2 : String) (a b : Selected) : Resp :=
  match a, b with
  | Selected.series c1, Selected.series c2 =>
      if c1 = [] ∨ c2 = [] then
        Resp.notFound ("No valid data for " ++ s1 ++ " or " ++ s2)
      else
        if align c1 c2 = [] then
          Resp.notFound "No overlapping data after alignment"
        else statsStage s1 s2 (align c1 c2)
  | _, _ => Resp.notFound ("No valid data for " ++ s1 ++ " or " ++ s2)

/-- The request body; `none` models an absent JSON field. -/
structure Request where
  stock1 : Option String
  stock2 : Option String
  period : Option String
deriving DecidableEq

/-- Python falsiness of `data.get(...)` on an optional string field. -/
def falsy : Option String → Bool
  | none => true
  | some s => s == ""

/-- The period allow-list of line 22 of the source. -/
def validPeriods : List String :=
  ["1d", "5d", "1mo", "3mo", "6mo", "1y", "2y", "5y", "10y", "ytd", "max"]

/-- The whole endpoint, lines 13-74 of the source, over a fetch oracle
mapping ticker and period to the raw result.  A `KeyError` escaping the
column selection is caught by the generic handler and classified as an
internal error. -/
noncomputable def compareStocks (fetch : String → String → RawFetchResult)
    (req : Request) : Resp :=
  if falsy req.stock1 || falsy req.stock2 || falsy req.period then
    Resp.badRequest "Missing stock ticker or period"
  else
    if (req.period.getD "") ∈ validPeriods then
      match selectPrice (fetch (req.stock1.getD "") (req.period.getD "")) (req.stock1.getD "") with
      | Except.error e => Resp.internalError ("Internal server error: " ++ e)
      | Except.ok a =>
        match selectPrice (fetch (req.stock2.getD "") (req.period.getD "")) (req.stock2.getD "") with
        | Except.error e => Resp.internalError ("Internal server error: " ++ e)
        | Except.ok b => afterSelect (req.stock1.getD "") (req.stock2.getD "") a b
    else
      Resp.badRequest ("Invalid period. Use: " ++ String.intercalate ", " validPeriods)

/-- The serialized correlation of a response (NaN when not a success). -/
def Resp.corrOf : Resp → PF
  | Resp.ok r => r.correlation
  | _ => PF.nan

/-- The serialized z-score list of a response. -/
def Resp.zOf : Resp → List PF
  | Resp.ok r => r.z_score
  | _ => []

/-- The serialized spread list of a response. -/
def Resp.spreadOf : Resp → List ℚ
  | Resp.ok r => r.spread
  | _ => []

/-- The serialized date list of a response. -/
def Resp.datesOf : Resp → List String
  | Resp.ok r => r.dates
  | _ => []

/-- The serialized first price list of a response. -/
def Resp.prices1Of : Resp → List ℚ
  | Resp.ok r => r.stock1_prices
  | _ => []

/-- The serialized second price list of a response. -/
def Resp.prices2Of : Resp → List ℚ
  | Resp.ok r => r.stock2_prices
  | _ => []

/-- The signal of a response (none when not a success). -/
def Resp.sigOf : Resp → Option String
  | Resp.ok r => r.signal
  | _ => none

/-- Whether the response is a success. -/
def Resp.isOk : Resp → Bool
  | Resp.ok _ => true
  | _ => false

/-- Whether the response has the not-found classification. -/
def Resp.isNotFound : Resp → Bool
  | Resp.notFound _ => true
  | _ => false

/-- Whether the response has the internal-error classification. -/
def Resp.isInternalError : Resp → Bool
  | Resp.internalError _ => true
  | _ => false

/-- Pearson correlation coefficient over paired observations, written as
the specification states it (covariance over the product of the sample
standard deviations); used to compare the pipeline value against the
specification. -/
noncomputable def pearsonR (xs ys : List ℚ) : ℝ :=
  ((scovQ xs ys : ℚ) : ℝ) / (Real.sqrt ((svarQ xs : ℚ) : ℝ) * Real.sqrt ((svarQ ys : ℚ) : ℝ))

/-- The dates of a column, in order. -/
def keysOf (c : Col) : List Date :=
  c.map Prod.fst

/-- The dates at which a column carries an actual value. -/
def dataKeys (c : Col) : List Date :=
  (dropNone c).map Prod.fst

/-- The columns a fetch result stores under a given level-0 field (and,
for a two-level result, under the given ticker below that field); used
to state which column the normalizer picked. -/
def columnAt (r : RawFetchResult) (field ticker : String) : List Col :=
  match r with
  | RawFetchResult.single cols => matchesOf field cols
  | RawFetchResult.multi cols => ((cols.lookup field).map (matchesOf ticker)).getD []

/-- The economic content of a signal relative to the request that
produced it: `recommendsShortLong s1 s2 sig x y` states that the signal
emitted for the request `(stock1 = s1, stock2 = s2)` recommends shorting
`x` and going long `y`. -/
def recommendsShortLong (s1 s2 : String) (sig : Option String) (x y : String) : Prop :=
  (sig = some ("Trade: Short " ++ s1 ++ ", Long " ++ s2) ∧ x = s1 ∧ y = s2) ∨
  (sig = some ("Trade: Long " ++ s1 ++ ", Short " ++ s2) ∧ x = s2 ∧ y = s1)

/-- The two-row series of the worked example of the specification:
`[(2024-01-01, 100), (2024-01-02, 102)]`. -/
def exCol : Col := [(20240101, some 100), (20240102, some 102)]

/-- A fetch oracle that returns the worked-example series for every
ticker, as a single-level table with an `Adj Close` column. -/
def exFetch : String → String → RawFetchResult :=
  fun _ _ => RawFetchResult.single [("Adj Close", exCol)]

/-- The worked-example request, two distinct tickers and a valid period. -/
def exReq : Request := { stock1 := some "AAA", stock2 := some "BBB", period := some "1mo" }

/-- The aligned table produced from `exCol` joined with itself. -/
def exDf : List (Date × ℚ × ℚ) := [(20240101, 100, 100), (20240102, 102, 102)]

/-- A fetch oracle whose non-empty result exposes neither an `Adj Close`
nor a `Close` column. -/
def noPriceFetch : String → String → RawFetchResult :=
  fun _ _ => RawFetchResult.single [("Open", [(20240101, some 1)])]

/-- A fetch oracle returning a non-empty series all of whose values are
missing. -/
def allMissingFetch : String → String → RawFetchResult :=
  fun _ _ => RawFetchResult.single [("Adj Close", [(20240101, none)])]

/-- A request naming the same ticker twice. -/
def sameReq : Request := { stock1 := some "AAA", stock2 := some "AAA", period := some "1mo" }

/-! ### Facts about the rational statistics -/

theorem sum_sq_nonneg (l : List ℚ) (m : ℚ) :
    0 ≤ (l.map (fun x => (x - m) ^ 2)).sum := by
  induction l with
  | nil => simp
  | cons a t ih =>
    simp only [List.map_cons, List.sum_cons]
    have := sq_nonneg (a - m)
    linarith

theorem sum_sq_eq_zero_iff (l : List ℚ) (m : ℚ) :
    (l.map (fun x => (x - m) ^ 2)).sum = 0 ↔ ∀ x ∈ l, x = m := by
  induction l with
  | nil => simp
  | cons a t ih =>
    simp only [List.map_cons, List.sum_cons, List.mem_cons]
    constructor
    · intro h
      have h1 : 0 ≤ (a - m) ^ 2 := sq_nonneg _
      have h2 : 0 ≤ (t.map (fun x => (x - m) ^ 2)).sum := sum_sq_nonneg t m
      have ha : (a - m) ^ 2 = 0 := by linarith
      have ht : (t.map (fun x => (x - m) ^ 2)).sum = 0 := by linarith
      have ham : a = m := by
        have := (pow_eq_zero_iff two_ne_zero).mp ha
        linarith [sub_eq_zero.mp this]
      intro x hx
      rcases hx with rfl | hx
      · exact ham
      · exact (ih.mp ht) x hx
    · intro h
      have ham : a = m := h a (Or.inl rfl)
      have ht : (t.map (fun x => (x - m) ^ 2)).sum = 0 :=
        ih.mpr (fun x hx => h x (Or.inr hx))
      rw [ham, sub_self, ht]
      ring

theorem svarQ_nonneg (l : List ℚ) (h : 2 ≤ l.length) : 0 ≤ svarQ l := by
  unfold svarQ
  apply div_nonneg (sum_sq_nonneg l (meanQ l))
  have : (2 : ℚ) ≤ (l.length : ℚ) := by exact_mod_cast h
  linarith

theorem svarQ_eq_zero_iff (l : List ℚ) (h : 2 ≤ l.length) :
    svarQ l = 0 ↔ ∀ x ∈ l, x = meanQ l := by
  have hden : ((l.length : ℚ) - 1) ≠ 0 := by
    have : (2 : ℚ) ≤ (l.length : ℚ) := by exact_mod_cast h
    intro hc
    have : (l.length : ℚ) = 1 := by linarith
    linarith
  unfold svarQ
  rw [div_eq_zero_iff]
  simp only [hden, or_false]
  exact sum_sq_eq_zero_iff l (meanQ l)

theorem zip_prod_sum_zero_left (xs ys : List ℚ) (mx my : ℚ)
    (h : ∀ x ∈ xs, x = mx) :
    (List.zipWith (fun x y => (x - mx) * (y - my)) xs ys).sum = 0 := by
  induction xs generalizing ys with
  | nil => simp
  | cons a t ih =>
    cases ys with
    | nil => simp
    | cons b u =>
      simp only [List.zipWith_cons_cons, List.sum_cons]
      rw [h a (by simp), sub_self, zero_mul, zero_add]
      exact ih u (fun x hx => h x (by simp [hx]))

theorem zip_prod_sum_zero_right (xs ys : List ℚ) (mx my : ℚ)
    (h : ∀ y ∈ ys, y = my) :
    (List.zipWith (fun x y => (x - mx) * (y - my)) xs ys).sum = 0 := by
  induction xs generalizing ys with
  | nil => simp
  | cons a t ih =>
    cases ys with
    | nil => simp
    | cons b u =>
      simp only [List.zipWith_cons_cons, List.sum_cons]
      rw [h b (by simp), sub_self, mul_zero, zero_add]
      exact ih u (fun y hy => h y (by simp [hy]))

theorem scovQ_zero_left (xs ys : List ℚ) (h : ∀ x ∈ xs, x = meanQ xs) :
    scovQ xs ys = 0 := by
  unfold scovQ
  rw [zip_prod_sum_zero_left xs ys (meanQ xs) (meanQ ys) h, zero_div]

theorem scovQ_zero_right (xs ys : List ℚ) (h : ∀ y ∈ ys, y = meanQ ys) :
    scovQ xs ys = 0 := by
  unfold scovQ
  rw [zip_prod_sum_zero_right xs ys (meanQ xs) (meanQ ys) h, zero_div]

/-! ### Equations for the float operations -/

@[simp] theorem fdiv_nan_left (q : PF) : fdiv PF.nan q = PF.nan := rfl

@[simp] theorem fdiv_val_nan (a : ℝ) : fdiv (PF.val a) PF.nan = PF.nan := rfl

@[simp] theorem fdiv_val_inf (a : ℝ) (p : Bool) : fdiv (PF.val a) (PF.inf p) = PF.val 0 := rfl

theorem fdiv_val_val (a b : ℝ) :
    fdiv (PF.val a) (PF.val b) =
      if b = 0 then
        if a = 0 then PF.nan else if 0 < a then PF.inf true else PF.inf false
      else PF.val (a / b) := rfl

theorem fdiv_val_zero_zero : fdiv (PF.val 0) (PF.val 0) = PF.nan := by
  rw [fdiv_val_val]
  simp

theorem fdiv_val_val_of_ne (a b : ℝ) (hb : b ≠ 0) :
    fdiv (PF.val a) (PF.val b) = PF.val (a / b) := by
  rw [fdiv_val_val, if_neg hb]

@[simp] theorem fmul_val_val (a b : ℝ) : fmul (PF.val a) (PF.val b) = PF.val (a * b) := rfl

@[simp] theorem fsqrt_val (x : ℝ) :
    fsqrt (PF.val x) = if x < 0 then PF.nan else PF.val (Real.sqrt x) := rfl

@[simp] theorem fneg_nan : fneg PF.nan = PF.nan := rfl

@[simp] theorem fneg_val (x : ℝ) : fneg (PF.val x) = PF.val (-x) := rfl

@[simp] theorem fabs_nan : fabs PF.nan = PF.nan := rfl

@[simp] theorem fabs_val (x : ℝ) : fabs (PF.val x) = PF.val |x| := rfl

@[simp] theorem coerceNaN_nan : coerceNaN PF.nan = PF.val 0 := rfl

@[simp] theorem coerceNaN_val (x : ℝ) : coerceNaN (PF.val x) = PF.val x := rfl

theorem coerceNaN_isNaN (c : PF) : (coerceNaN c).isNaN = false := by
  cases c <;> rfl

theorem coerceNaN_isInf (c : PF) (h : c.isInf = false) : (coerceNaN c).isInf = false := by
  cases c with
  | nan => rfl
  | inf p => exact absurd h (by simp [PF.isInf])
  | val x => rfl

/-! ### The standard deviation, z-scores and correlation -/

theorem stdPF_short (l : List ℚ) (h : l.length < 2) : stdPF l = PF.nan := by
  unfold stdPF varPF
  rw [if_pos h]
  rfl

theorem stdPF_long (l : List ℚ) (h : 2 ≤ l.length) :
    stdPF l = PF.val (Real.sqrt ((svarQ l : ℚ) : ℝ)) := by
  unfold stdPF varPF
  rw [if_neg (by omega), fsqrt_val, if_neg]
  rw [not_lt]
  exact_mod_cast svarQ_nonneg l h

theorem zScores_short (l : List ℚ) (h : l.length < 2) :
    zScores l = l.map (fun _ => PF.nan) := by
  unfold zScores
  rw [stdPF_short l h]
  simp

theorem zScores_degenerate (l : List ℚ) (h2 : 2 ≤ l.length) (hv : svarQ l = 0) :
    zScores l = l.map (fun _ => PF.nan) := by
  unfold zScores
  rw [stdPF_long l h2, hv]
  apply List.map_congr_left
  intro s hs
  have hm : s = meanQ l := (svarQ_eq_zero_iff l h2).mp hv s hs
  rw [hm, sub_self]
  simp only [Rat.cast_zero, Real.sqrt_zero]
  exact fdiv_val_zero_zero

theorem svarQ_cast_pos (l : List ℚ) (h2 : 2 ≤ l.length) (hv : svarQ l ≠ 0) :
    (0 : ℝ) < ((svarQ l : ℚ) : ℝ) := by
  have h0 : 0 ≤ svarQ l := svarQ_nonneg l h2
  have : 0 < svarQ l := lt_of_le_of_ne h0 (Ne.symm hv)
  exact_mod_cast this

theorem zScores_pos (l : List ℚ) (h2 : 2 ≤ l.length) (hv : svarQ l ≠ 0) :
    zScores l =
      l.map (fun s => PF.val (((s - meanQ l : ℚ) : ℝ) / Real.sqrt ((svarQ l : ℚ) : ℝ))) := by
  unfold zScores
  rw [stdPF_long l h2]
  apply List.map_congr_left
  intro s _
  have hpos : (0 : ℝ) < Real.sqrt ((svarQ l : ℚ) : ℝ) :=
    Real.sqrt_pos.mpr (svarQ_cast_pos l h2 hv)
  exact fdiv_val_val_of_ne _ _ (ne_of_gt hpos)

theorem zScores_not_inf (l : List ℚ) : ∀ z ∈ zScores l, z.isInf = false := by
  rcases lt_or_le l.length 2 with h | h
  · rw [zScores_short l h]
    intro z hz
    rcases List.mem_map.mp hz with ⟨_, _, rfl⟩
    rfl
  · by_cases hv : svarQ l = 0
    · rw [zScores_degenerate l h hv]
      intro z hz
      rcases List.mem_map.mp hz with ⟨_, _, rfl⟩
      rfl
    · rw [zScores_pos l h hv]
      intro z hz
      rcases List.mem_map.mp hz with ⟨_, _, rfl⟩
      rfl

theorem zScores_nan_iff (l : List ℚ) :
    ∀ z ∈ zScores l, (z.isNaN = true ↔ (l.length < 2 ∨ svarQ l = 0)) := by
  rcases lt_or_le l.length 2 with h | h
  · rw [zScores_short l h]
    intro z hz
    rcases List.mem_map.mp hz with ⟨_, _, rfl⟩
    simp [PF.isNaN, h]
  · by_cases hv : svarQ l = 0
    · rw [zScores_degenerate l h hv]
      intro z hz
      rcases List.mem_map.mp hz with ⟨_, _, rfl⟩
      simp [PF.isNaN, hv]
    · rw [zScores_pos l h hv]
      intro z hz
      rcases List.mem_map.mp hz with ⟨_, _, rfl⟩
      simp [PF.isNaN, hv]
      omega

theorem covPF_eq (xs ys : List ℚ) (hlen : xs.length = ys.length) (h2 : 2 ≤ xs.length) :
    covPF xs ys = PF.val ((scovQ xs ys : ℚ) : ℝ) := by
  unfold covPF
  rw [if_neg (by omega)]

theorem corrPF_degenerate (xs ys : List ℚ) (hlen : xs.length = ys.length)
    (h : xs.length < 2 ∨ svarQ xs = 0 ∨ svarQ ys = 0) : corrPF xs ys = PF.nan := by
  rcases lt_or_le xs.length 2 with hlt | h2
  · unfold corrPF covPF
    rw [if_pos (Or.inl hlt)]
    exact fdiv_nan_left _
  · rcases h with hlt | hx | hy
    · omega
    · unfold corrPF
      rw [covPF_eq xs ys hlen h2, stdPF_long xs h2, stdPF_long ys (hlen ▸ h2), hx]
      rw [scovQ_zero_left xs ys ((svarQ_eq_zero_iff xs h2).mp hx)]
      simp only [Rat.cast_zero, Real.sqrt_zero, fmul_val_val, zero_mul]
      exact fdiv_val_zero_zero
    · unfold corrPF
      rw [covPF_eq xs ys hlen h2, stdPF_long xs h2, stdPF_long ys (hlen ▸ h2), hy]
      rw [scovQ_zero_right xs ys ((svarQ_eq_zero_iff ys (hlen ▸ h2)).mp hy)]
      simp only [Rat.cast_zero, Real.sqrt_zero, fmul_val_val, mul_zero]
      exact fdiv_val_zero_zero

theorem corrPF_pos (xs ys : List ℚ) (hlen : xs.length = ys.length)
    (h2 : 2 ≤ xs.length) (hx : svarQ xs ≠ 0) (hy : svarQ ys ≠ 0) :
    corrPF xs ys = PF.val (pearsonR xs ys) := by
  unfold corrPF pearsonR
  rw [covPF_eq xs ys hlen h2, stdPF_long xs h2, stdPF_long ys (hlen ▸ h2), fmul_val_val]
  apply fdiv_val_val_of_ne
  have p1 : (0 : ℝ) < Real.sqrt ((svarQ xs : ℚ) : ℝ) :=
    Real.sqrt_pos.mpr (svarQ_cast_pos xs h2 hx)
  have p2 : (0 : ℝ) < Real.sqrt ((svarQ ys : ℚ) : ℝ) :=
    Real.sqrt_pos.mpr (svarQ_cast_pos ys (hlen ▸ h2) hy)
  positivity

theorem corrPF_not_inf (xs ys : List ℚ) (hlen : xs.length = ys.length) :
    (corrPF xs ys).isInf = false := by
  by_cases h : xs.length < 2 ∨ svarQ xs = 0 ∨ svarQ ys = 0
  · rw [corrPF_degenerate xs ys hlen h]
    rfl
  · push_neg at h
    rw [corrPF_pos xs ys hlen (by omega) h.2.1 h.2.2]
    rfl

/-! ### The statistics stage of the pipeline -/

theorem col1_length (df : List (Date × ℚ × ℚ)) : (col1 df).length = df.length := by
  simp [col1]

theorem col2_length (df : List (Date × ℚ × ℚ)) : (col2 df).length = df.length := by
  simp [col2]

theorem spreadOfTable_length (df : List (Date × ℚ × ℚ)) :
    (spreadOfTable df).length = df.length := by
  simp [spreadOfTable]

theorem statsStage_eq (s1 s2 : String) (df : List (Date × ℚ × ℚ)) (h : s1 ≠ s2) :
    statsStage s1 s2 df = Resp.ok
      { correlation := coerceNaN (corrPF (col1 df) (col2 df))
        dates := df.map (fun r => fmtDate r.1)
        stock1_prices := col1 df
        stock2_prices := col2 df
        spread := spreadOfTable df
        z_score := zScores (spreadOfTable df)
        signal := signalFromZ s1 s2 (latestZ df) } := by
  unfold statsStage
  rw [if_neg h]

theorem mem_of_getLast_eq (l : List PF) (z : PF) (h : l.getLast? = some z) : z ∈ l := by
  induction l with
  | nil => simp at h
  | cons a t ih =>
    cases t with
    | nil =>
      simp [List.getLast?] at h
      simp [h]
    | cons b u =>
      rw [List.getLast?_cons_cons] at h
      exact List.mem_cons_of_mem a (ih h)

theorem latestZ_not_inf (df : List (Date × ℚ × ℚ)) : (latestZ df).isInf = false := by
  unfold latestZ
  cases hg : (zScores (spreadOfTable df)).getLast? with
  | none => rfl
  | some z => exact zScores_not_inf _ z (mem_of_getLast_eq _ z hg)

/-! ### The signal classifier -/

@[simp] theorem zEffOf_nan : zEffOf PF.nan = 0 := rfl

@[simp] theorem zEffOf_val (x : ℝ) : zEffOf (PF.val x) = x := rfl

theorem signal_nan (s1 s2 : String) : signalFromZ s1 s2 PF.nan = none := by
  unfold signalFromZ
  have hng : ¬ gtR (fabs PF.nan) 2 := fun hc => hc
  rw [if_neg hng]

theorem signal_val_le (s1 s2 : String) (x : ℝ) (h : |x| ≤ 2) :
    signalFromZ s1 s2 (PF.val x) = none := by
  unfold signalFromZ
  rw [if_neg]
  exact fun hc => (not_lt.mpr h) hc

theorem signal_val_gt (s1 s2 : String) (x : ℝ) (h : 2 < x) :
    signalFromZ s1 s2 (PF.val x) = some ("Trade: Short " ++ s1 ++ ", Long " ++ s2) := by
  unfold signalFromZ
  have houter : gtR (fabs (PF.val x)) 2 := lt_of_lt_of_le h (le_abs_self x)
  have hinner : gtR (PF.val x) 2 := h
  rw [if_pos houter, if_pos hinner]

theorem signal_val_lt (s1 s2 : String) (x : ℝ) (h : x < -2) :
    signalFromZ s1 s2 (PF.val x) = some ("Trade: Long " ++ s1 ++ ", Short " ++ s2) := by
  unfold signalFromZ
  have houter : gtR (fabs (PF.val x)) 2 := lt_of_lt_of_le (by linarith) (neg_le_abs x)
  have hinner : ¬ gtR (PF.val x) 2 := not_lt.mpr (by linarith)
  rw [if_pos houter, if_neg hinner]

theorem signal_char (s1 s2 : String) (z : PF) (h : z.isInf = false) :
    (signalFromZ s1 s2 z = none ↔ |zEffOf z| ≤ 2)
    ∧ (2 < zEffOf z → signalFromZ s1 s2 z = some ("Trade: Short " ++ s1 ++ ", Long " ++ s2))
    ∧ (zEffOf z < -2 →
        signalFromZ s1 s2 z = some ("Trade: Long " ++ s1 ++ ", Short " ++ s2)) := by
  cases z with
  | nan =>
    refine ⟨?_, ?_, ?_⟩
    · rw [signal_nan]
      simp only [zEffOf_nan]
      norm_num
    · simp only [zEffOf_nan]
      intro hx
      norm_num at hx
    · simp only [zEffOf_nan]
      intro hx
      norm_num at hx
  | inf p => simp [PF.isInf] at h
  | val x =>
    simp only [zEffOf_val]
    refine ⟨?_, ?_, ?_⟩
    · constructor
      · intro hnone
        by_contra habs
        rw [not_le] at habs
        rcases lt_abs.mp habs with hgt | hlt
        · rw [signal_val_gt s1 s2 x hgt] at hnone
          exact Option.noConfusion hnone
        · rw [signal_val_lt s1 s2 x (by linarith)] at hnone
          exact Option.noConfusion hnone
      · exact fun hle => signal_val_le s1 s2 x hle
    · exact fun hgt => signal_val_gt s1 s2 x hgt
    · exact fun hlt => signal_val_lt s1 s2 x hlt

/-! ### Claims C1, C3, C4 and C6: response numerics and the signal -/

/-- C4: for a successful comparison, with `z` the most recent z-score
treated as `0` when non-finite, the signal is none exactly when
`|z| ≤ 2` (in particular at exactly `2`); `z > 2` recommends shorting
the first instrument and going long the second; `z < -2` recommends the
opposite direction. -/
theorem signal_threshold_spec (s1 s2 : String) (df : List (Date × ℚ × ℚ)) (hne : s1 ≠ s2) :
    ((statsStage s1 s2 df).sigOf = none ↔ |zEffOf (latestZ df)| ≤ 2)
    ∧ (2 < zEffOf (latestZ df) →
        (statsStage s1 s2 df).sigOf = some ("Trade: Short " ++ s1 ++ ", Long " ++ s2))
    ∧ (zEffOf (latestZ df) < -2 →
        (statsStage s1 s2 df).sigOf = some ("Trade: Long " ++ s1 ++ ", Short " ++ s2)) := by
  have hproj : (statsStage s1 s2 df).sigOf = signalFromZ s1 s2 (latestZ df) := by
    rw [statsStage_eq s1 s2 df hne]
    rfl
  rw [hproj]
  exact signal_char s1 s2 (latestZ df) (latestZ_not_inf df)

/-- Witness for C4 at a concrete aligned table. -/
theorem signal_threshold_spec_witness :
    "A" ≠ "B"
    ∧ (((statsStage "A" "B" [(20240101, 100, 90)]).sigOf = none ↔
        |zEffOf (latestZ [(20240101, 100, 90)])| ≤ 2)
      ∧ (2 < zEffOf (latestZ [(20240101, 100, 90)]) →
          (statsStage "A" "B" [(20240101, 100, 90)]).sigOf =
            some ("Trade: Short " ++ "A" ++ ", Long " ++ "B"))
      ∧ (zEffOf (latestZ [(20240101, 100, 90)]) < -2 →
          (statsStage "A" "B" [(20240101, 100, 90)]).sigOf =
            some ("Trade: Long " ++ "A" ++ ", Short " ++ "B"))) :=
  ⟨by decide, signal_threshold_spec "A" "B" [(20240101, 100, 90)] (by decide)⟩

/-- C3: the serialized correlation is `0.0` (and in particular not NaN)
when the aligned table has fewer than two rows or a constant price
column, and is otherwise the Pearson coefficient of the two columns. -/
theorem correlation_policy (s1 s2 : String) (df : List (Date × ℚ × ℚ)) (hne : s1 ≠ s2) :
    (statsStage s1 s2 df).corrOf.isNaN = false
    ∧ ((df.length < 2 ∨ svarQ (col1 df) = 0 ∨ svarQ (col2 df) = 0) →
        (statsStage s1 s2 df).corrOf = PF.val 0)
    ∧ (¬(df.length < 2 ∨ svarQ (col1 df) = 0 ∨ svarQ (col2 df) = 0) →
        (statsStage s1 s2 df).corrOf = PF.val (pearsonR (col1 df) (col2 df))) := by
  have hc : (statsStage s1 s2 df).corrOf = coerceNaN (corrPF (col1 df) (col2 df)) := by
    rw [statsStage_eq s1 s2 df hne]
    rfl
  have hlen : (col1 df).length = (col2 df).length := by
    rw [col1_length, col2_length]
  refine ⟨?_, ?_, ?_⟩
  · rw [hc]
    exact coerceNaN_isNaN _
  · intro h
    rw [hc, corrPF_degenerate _ _ hlen (by rw [col1_length]; exact h)]
    rfl
  · intro h
    push_neg at h
    rw [hc, corrPF_pos _ _ hlen (by rw [col1_length]; omega) h.2.1 h.2.2]
    rfl

/-- Witness for C3 at a concrete aligned table. -/
theorem correlation_policy_witness :
    "A" ≠ "B"
    ∧ ((statsStage "A" "B" [(1, 100, 90), (2, 102, 95)]).corrOf.isNaN = false
      ∧ (([(1, (100 : ℚ), (90 : ℚ)), (2, 102, 95)].length < 2
            ∨ svarQ (col1 [(1, 100, 90), (2, 102, 95)]) = 0
            ∨ svarQ (col2 [(1, 100, 90), (2, 102, 95)]) = 0) →
          (statsStage "A" "B" [(1, 100, 90), (2, 102, 95)]).corrOf = PF.val 0)
      ∧ (¬([(1, (100 : ℚ), (90 : ℚ)), (2, 102, 95)].length < 2
            ∨ svarQ (col1 [(1, 100, 90), (2, 102, 95)]) = 0
            ∨ svarQ (col2 [(1, 100, 90), (2, 102, 95)]) = 0) →
          (statsStage "A" "B" [(1, 100, 90), (2, 102, 95)]).corrOf =
            PF.val (pearsonR (col1 [(1, 100, 90), (2, 102, 95)])
              (col2 [(1, 100, 90), (2, 102, 95)])))) :=
  ⟨by decide, correlation_policy "A" "B" [(1, 100, 90), (2, 102, 95)] (by decide)⟩

/-- C6: for a non-degenerate aligned table the serialized spread is the
elementwise difference of the two price columns, and every serialized
z-score is `(spread i - mean) / stddev` for the single sample mean and
sample standard deviation of the whole aligned window. -/
theorem spread_zscore_formula (s1 s2 : String) (df : List (Date × ℚ × ℚ))
    (hne : s1 ≠ s2) (h2 : 2 ≤ df.length) (hv : svarQ (spreadOfTable df) ≠ 0) :
    (statsStage s1 s2 df).spreadOf = List.zipWith (fun x y => x - y) (col1 df) (col2 df)
    ∧ (statsStage s1 s2 df).zOf =
        (statsStage s1 s2 df).spreadOf.map
          (fun s => PF.val (((s - meanQ (spreadOfTable df) : ℚ) : ℝ) /
            Real.sqrt ((svarQ (spreadOfTable df) : ℚ) : ℝ))) := by
  have hsp : (statsStage s1 s2 df).spreadOf = spreadOfTable df := by
    rw [statsStage_eq s1 s2 df hne]
    rfl
  have hz : (statsStage s1 s2 df).zOf = zScores (spreadOfTable df) := by
    rw [statsStage_eq s1 s2 df hne]
    rfl
  constructor
  · rw [hsp]
    unfold spreadOfTable col1 col2
    rw [List.zipWith_map_left, List.zipWith_map_right, List.zipWith_same]
  · rw [hz, hsp]
    exact zScores_pos (spreadOfTable df) (by rw [spreadOfTable_length]; exact h2) hv

theorem spread_ex_eq : spreadOfTable [(1, (100 : ℚ), (90 : ℚ)), (2, 102, 91)] = [10, 11] := by
  simp [spreadOfTable]
  norm_num

theorem svar_ex_ne : svarQ (spreadOfTable [(1, (100 : ℚ), (90 : ℚ)), (2, 102, 91)]) ≠ 0 := by
  rw [spread_ex_eq]
  simp [svarQ, meanQ]
  norm_num

/-- Witness for C6 at a concrete aligned table. -/
theorem spread_zscore_formula_witness :
    ("A" ≠ "B" ∧ 2 ≤ [((1 : Date), ((100 : ℚ)), ((90 : ℚ))), (2, 102, 91)].length
      ∧ svarQ (spreadOfTable [((1 : Date), (100 : ℚ), (90 : ℚ)), (2, 102, 91)]) ≠ 0)
    ∧ ((statsStage "A" "B" [(1, 100, 90), (2, 102, 91)]).spreadOf =
        List.zipWith (fun x y => x - y) (col1 [(1, 100, 90), (2, 102, 91)])
          (col2 [(1, 100, 90), (2, 102, 91)])
      ∧ (statsStage "A" "B" [(1, 100, 90), (2, 102, 91)]).zOf =
          (statsStage "A" "B" [(1, 100, 90), (2, 102, 91)]).spreadOf.map
            (fun s => PF.val (((s - meanQ (spreadOfTable [(1, 100, 90), (2, 102, 91)]) : ℚ) : ℝ) /
              Real.sqrt ((svarQ (spreadOfTable [(1, 100, 90), (2, 102, 91)]) : ℚ) : ℝ)))) :=
  ⟨⟨by decide, by decide, svar_ex_ne⟩,
    spread_zscore_formula "A" "B" [(1, 100, 90), (2, 102, 91)] (by decide) (by decide) svar_ex_ne⟩

/-- C1 (amended): in a successful response the serialized correlation is
never NaN nor infinite (prices and the spread are exact rationals, hence
finite), but the serialized z-score sequence is not coerced: each of its
entries is NaN exactly when the aligned table has fewer than two rows or
the spread has zero sample variance; no entry is infinite. -/
theorem response_finiteness (s1 s2 : String) (df : List (Date × ℚ × ℚ)) (hne : s1 ≠ s2) :
    (statsStage s1 s2 df).corrOf.isNaN = false
    ∧ (statsStage s1 s2 df).corrOf.isInf = false
    ∧ (∀ z ∈ (statsStage s1 s2 df).zOf, z.isInf = false)
    ∧ (∀ z ∈ (statsStage s1 s2 df).zOf,
        (z.isNaN = true ↔ (df.length < 2 ∨ svarQ (spreadOfTable df) = 0))) := by
  have hc : (statsStage s1 s2 df).corrOf = coerceNaN (corrPF (col1 df) (col2 df)) := by
    rw [statsStage_eq s1 s2 df hne]
    rfl
  have hz : (statsStage s1 s2 df).zOf = zScores (spreadOfTable df) := by
    rw [statsStage_eq s1 s2 df hne]
    rfl
  have hlen : (col1 df).length = (col2 df).length := by
    rw [col1_length, col2_length]
  refine ⟨?_, ?_, ?_, ?_⟩
  · rw [hc]
    exact coerceNaN_isNaN _
  · rw [hc]
    exact coerceNaN_isInf _ (corrPF_not_inf _ _ hlen)
  · rw [hz]
    exact zScores_not_inf (spreadOfTable df)
  · rw [hz]
    intro z hzz
    rw [zScores_nan_iff (spreadOfTable df) z hzz, spreadOfTable_length]

/-- Witness for C1 (amended) at a concrete aligned table. -/
theorem response_finiteness_witness :
    "A" ≠ "B"
    ∧ ((statsStage "A" "B" [(1, 100, 90)]).corrOf.isNaN = false
      ∧ (statsStage "A" "B" [(1, 100, 90)]).corrOf.isInf = false
      ∧ (∀ z ∈ (statsStage "A" "B" [(1, 100, 90)]).zOf, z.isInf = false)
      ∧ (∀ z ∈ (statsStage "A" "B" [(1, 100, 90)]).zOf,
          (z.isNaN = true ↔ ([(1, ((100 : ℚ)), ((90 : ℚ)))].length < 2
            ∨ svarQ (spreadOfTable [(1, 100, 90)]) = 0)))) :=
  ⟨by decide, response_finiteness "A" "B" [(1, 100, 90)] (by decide)⟩

/-! ### Evaluation of the worked example of the specification -/

theorem ex_spread : spreadOfTable exDf = [0, 0] := by
  norm_num [spreadOfTable, exDf]

theorem ex_svar_spread : svarQ [(0 : ℚ), 0] = 0 := by
  simp [svarQ, meanQ]

theorem ex_z : zScores (spreadOfTable exDf) = [PF.nan, PF.nan] := by
  rw [ex_spread, zScores_degenerate [(0 : ℚ), 0] (by norm_num) ex_svar_spread]
  rfl

theorem ex_latest : latestZ exDf = PF.nan := by
  unfold latestZ
  rw [ex_z]
  rfl

theorem ex_svar_col : svarQ [(100 : ℚ), 102] = 2 := by
  simp [svarQ, meanQ]
  norm_num

theorem ex_scov : scovQ [(100 : ℚ), 102] [(100 : ℚ), 102] = 2 := by
  simp [scovQ, meanQ]
  norm_num

theorem ex_corr : corrPF (col1 exDf) (col2 exDf) = PF.val 1 := by
  have h1 : col1 exDf = [100, 102] := rfl
  have h2 : col2 exDf = [100, 102] := rfl
  rw [h1, h2, corrPF_pos _ _ rfl (by norm_num) (by rw [ex_svar_col]; norm_num)
    (by rw [ex_svar_col]; norm_num)]
  unfold pearsonR
  rw [ex_svar_col, ex_scov, Real.mul_self_sqrt (by norm_num : (0 : ℝ) ≤ ((2 : ℚ) : ℝ))]
  norm_num

theorem ex_signal : signalFromZ "AAA" "BBB" (latestZ exDf) = none := by
  rw [ex_latest]
  exact signal_nan _ _

theorem exResp_eval : compareStocks exFetch exReq =
    Resp.ok ⟨PF.val 1, ["2024-01-01", "2024-01-02"], [100, 102], [100, 102], [0, 0],
      [PF.nan, PF.nan], none⟩ := by
  have h0 : compareStocks exFetch exReq = statsStage "AAA" "BBB" exDf := rfl
  rw [h0, statsStage_eq "AAA" "BBB" exDf (by decide), ex_corr, ex_signal, ex_z, ex_spread]
  rw [show exDf.map (fun r => fmtDate r.1) = ["2024-01-01", "2024-01-02"] from by decide]
  rfl

/-! ### Claims C1 and C2 on the worked example -/

/-- C1 counterexample: the worked-example request succeeds, and its
serialized z-score sequence contains NaN entries — the non-finite values
produced by the statistics engine are not coerced to `0.0` before the
response is assembled. -/
theorem zscore_nan_serialized :
    (compareStocks exFetch exReq).isOk = true
    ∧ (compareStocks exFetch exReq).zOf.any PF.isNaN = true := by
  rw [exResp_eval]
  exact ⟨rfl, rfl⟩

/-- C2 (amended): on the worked example (both fetched series equal to
`[(2024-01-01, 100), (2024-01-02, 102)]`), the reported correlation is
`1.0` (the price columns are identical and non-constant), the dates are
`["2024-01-01", "2024-01-02"]` and the signal is none. -/
theorem example_response :
    (compareStocks exFetch exReq).corrOf = PF.val 1
    ∧ (compareStocks exFetch exReq).datesOf = ["2024-01-01", "2024-01-02"]
    ∧ (compareStocks exFetch exReq).sigOf = none := by
  rw [exResp_eval]
  exact ⟨rfl, rfl, rfl⟩

/-- C2 counterexample: the correlation reported for the worked example
is not `0.0`. -/
theorem example_corr_ne_zero : (compareStocks exFetch exReq).corrOf ≠ PF.val 0 := by
  rw [exResp_eval]
  intro h
  have h1 : (1 : ℝ) = 0 := by injection h
  exact one_ne_zero h1

/-! ### Claim C5: fetch results with no usable price column -/

theorem matchesOf_nil (name : String) (cols : List (String × Col))
    (h : name ∉ cols.map Prod.fst) : matchesOf name cols = [] := by
  unfold matchesOf
  apply List.filterMap_eq_nil_iff.mpr
  intro p hp
  have hne : p.1 ≠ name := fun he => h (he ▸ List.mem_map_of_mem Prod.fst hp)
  simp [hne]

theorem lookup_none {β : Type} (cols : List (String × β)) (k : String)
    (h : k ∉ cols.map Prod.fst) : cols.lookup k = none := by
  induction cols with
  | nil => rfl
  | cons p t ih =>
    simp only [List.map_cons, List.mem_cons, not_or] at h
    cases p with
    | mk a b =>
      have hb : (k == a) = false := beq_eq_false_iff_ne.mpr h.1
      simp only [List.lookup]
      rw [hb]
      exact ih h.2

theorem selectPrice_error (r : RawFetchResult) (t : String)
    (hna : "Adj Close" ∉ fieldsOf r) (hnc : "Close" ∉ fieldsOf r) :
    selectPrice r t = Except.error "Close" := by
  cases r with
  | single cols =>
    have hna2 : "Adj Close" ∉ List.map Prod.fst cols := hna
    have hnc2 : "Close" ∉ List.map Prod.fst cols := hnc
    simp only [selectPrice]
    rw [if_neg hna2, matchesOf_nil "Close" cols hnc2]
    rfl
  | multi cols =>
    have hna2 : "Adj Close" ∉ List.map Prod.fst cols := hna
    have hnc2 : "Close" ∉ List.map Prod.fst cols := hnc
    simp only [selectPrice, pickMulti]
    rw [if_neg hna2, lookup_none cols "Close" hnc2]

/-- C5 (amended): a fetch result that exposes neither an adjusted-close
nor a close field makes the column selection raise a key error, and the
endpoint classifies the failure as an internal error (500), not as
not-found. -/
theorem missing_columns_internal_error (fetch : String → String → RawFetchResult)
    (req : Request)
    (h1 : falsy req.stock1 = false) (h2 : falsy req.stock2 = false)
    (h3 : falsy req.period = false)
    (hp : (req.period.getD "") ∈ validPeriods)
    (hna : "Adj Close" ∉ fieldsOf (fetch (req.stock1.getD "") (req.period.getD "")))
    (hnc : "Close" ∉ fieldsOf (fetch (req.stock1.getD "") (req.period.getD ""))) :
    (compareStocks fetch req).isInternalError = true
    ∧ (compareStocks fetch req).isNotFound = false := by
  have hsel : selectPrice (fetch (req.stock1.getD "") (req.period.getD ""))
      (req.stock1.getD "") = Except.error "Close" :=
    selectPrice_error _ _ hna hnc
  unfold compareStocks
  rw [h1, h2, h3]
  simp [hp, hsel, Resp.isInternalError, Resp.isNotFound]

/-- Witness for C5 (amended) at the concrete column-free fetch result. -/
theorem missing_columns_internal_error_witness :
    (falsy exReq.stock1 = false ∧ falsy exReq.stock2 = false ∧ falsy exReq.period = false
      ∧ (exReq.period.getD "") ∈ validPeriods
      ∧ "Adj Close" ∉ fieldsOf (noPriceFetch (exReq.stock1.getD "") (exReq.period.getD ""))
      ∧ "Close" ∉ fieldsOf (noPriceFetch (exReq.stock1.getD "") (exReq.period.getD "")))
    ∧ ((compareStocks noPriceFetch exReq).isInternalError = true
      ∧ (compareStocks noPriceFetch exReq).isNotFound = false) :=
  ⟨⟨rfl, rfl, rfl, by decide, by decide, by decide⟩,
    missing_columns_internal_error noPriceFetch exReq rfl rfl rfl (by decide) (by decide)
      (by decide)⟩

/-- C5 counterexample: on a non-empty fetch result with only an `Open`
column, the endpoint returns the internal-error classification, not the
not-found classification the claim states. -/
theorem noprice_not_notfound :
    (compareStocks noPriceFetch exReq).isNotFound = false
    ∧ (compareStocks noPriceFetch exReq).isInternalError = true :=
  ⟨rfl, rfl⟩

/-! ### Claim C9: requesting the same ticker twice -/

/-- C9 (amended): when both request fields name the same ticker, the
period is valid, the selected series is non-empty and has at least one
non-missing value (so that the aligned table is non-empty), the endpoint
returns an internal error rather than a comparison result: both aligned
columns receive the same label and the correlation step raises. -/
theorem same_ticker_internal_error (fetch : String → String → RawFetchResult)
    (t p : String) (c : Col)
    (ht : (t == "") = false) (hp : p ∈ validPeriods)
    (hsel : selectPrice (fetch t p) t = Except.ok (Selected.series c))
    (hcne : c ≠ []) (hal : align c c ≠ []) :
    (compareStocks fetch { stock1 := some t, stock2 := some t, period := some p }).isInternalError
        = true
    ∧ (compareStocks fetch
        { stock1 := some t, stock2 := some t, period := some p }).isOk = false := by
  have hpne : (p == "") = false := by
    apply beq_eq_false_iff_ne.mpr
    intro he
    subst he
    revert hp
    decide
  simp [compareStocks, falsy, ht, hpne, hp, hsel, afterSelect, hcne, hal, statsStage,
    Resp.isInternalError, Resp.isOk]

/-- Witness for C9 (amended) at a concrete one-row series. -/
theorem same_ticker_internal_error_witness :
    (("AAA" == "") = false ∧ "1mo" ∈ validPeriods
      ∧ selectPrice (exFetch "AAA" "1mo") "AAA" = Except.ok (Selected.series exCol)
      ∧ exCol ≠ [] ∧ align exCol exCol ≠ [])
    ∧ ((compareStocks exFetch
          { stock1 := some "AAA", stock2 := some "AAA", period := some "1mo" }).isInternalError
            = true
      ∧ (compareStocks exFetch
          { stock1 := some "AAA", stock2 := some "AAA", period := some "1mo" }).isOk = false) :=
  ⟨⟨rfl, by decide, rfl, by decide, by decide⟩,
    same_ticker_internal_error exFetch "AAA" "1mo" exCol rfl (by decide) rfl (by decide)
      (by decide)⟩

/-! ### Alignment: membership, order, and the swap symmetry -/

theorem shortLong_ne (a b c d : String) :
    "Trade: Short " ++ a ++ ", Long " ++ b ≠ "Trade: Long " ++ c ++ ", Short " ++ d := by
  intro h
  have hd := congrArg String.data h
  simp only [String.data_append] at hd
  simp [List.cons_append, List.cons.injEq] at hd

theorem mem_dropNone (c : Col) (d : Date) (x : ℚ) :
    (d, x) ∈ dropNone c ↔ (d, some x) ∈ c := by
  unfold dropNone
  rw [List.mem_filterMap]
  constructor
  · rintro ⟨p, hp, he⟩
    cases p with
    | mk pd pv =>
      cases pv with
      | none => simp at he
      | some v =>
        simp only [Option.map, Option.some.injEq, Prod.mk.injEq] at he
        obtain ⟨rfl, rfl⟩ := he
        exact hp
  · intro hm
    exact ⟨(d, some x), hm, rfl⟩

theorem lookup_some_mem {l : List (Date × ℚ)} {d : Date} {v : ℚ}
    (h : l.lookup d = some v) : (d, v) ∈ l := by
  induction l with
  | nil => simp [List.lookup] at h
  | cons p t ih =>
    cases p with
    | mk a b =>
      simp only [List.lookup] at h
      cases hb : (d == a) with
      | false =>
        rw [hb] at h
        exact List.mem_cons_of_mem _ (ih h)
      | true =>
        rw [hb] at h
        obtain rfl : b = v := by simpa using h
        obtain rfl : d = a := eq_of_beq hb
        exact List.mem_cons_self _ _

theorem lookup_isSome_iff {l : List (Date × ℚ)} {d : Date} :
    ((l.lookup d).isSome = true) ↔ d ∈ l.map Prod.fst := by
  induction l with
  | nil => simp [List.lookup]
  | cons p t ih =>
    cases p with
    | mk a b =>
      simp only [List.lookup, List.map_cons, List.mem_cons]
      cases hb : (d == a) with
      | false =>
        rw [ih]
        have : d ≠ a := fun he => by simp [he] at hb
        simp [this]
      | true =>
        obtain rfl : d = a := eq_of_beq hb
        simp

theorem mem_align {c1 c2 : Col} {r : Date × ℚ × ℚ} :
    r ∈ align c1 c2 ↔
      ((r.1, r.2.1) ∈ dropNone c1 ∧ (dropNone c2).lookup r.1 = some r.2.2) := by
  unfold align
  rw [List.mem_filterMap]
  constructor
  · rintro ⟨p, hp, he⟩
    cases hl : (dropNone c2).lookup p.1 with
    | none => rw [hl] at he; simp at he
    | some y =>
      rw [hl] at he
      simp only [Option.map, Option.some.injEq] at he
      subst he
      exact ⟨hp, hl⟩
  · rintro ⟨h1, h2⟩
    refine ⟨(r.1, r.2.1), h1, ?_⟩
    rw [h2]
    rfl

theorem align_keys_sublist (c1 c2 : Col) :
    ((align c1 c2).map Prod.fst).Sublist (dataKeys c1) := by
  unfold align dataKeys
  generalize dropNone c1 = l
  induction l with
  | nil => simp
  | cons p t ih =>
    simp only [List.filterMap_cons, List.map_cons]
    cases (dropNone c2).lookup p.1 with
    | none => exact ih.cons p.1
    | some y => exact ih.cons₂ p.1

theorem dataKeys_sublist (c : Col) : (dataKeys c).Sublist (keysOf c) := by
  unfold dataKeys dropNone keysOf
  induction c with
  | nil => simp
  | cons p t ih =>
    simp only [List.filterMap_cons, List.map_cons]
    cases hp : p.2 with
    | none => exact ih.cons p.1
    | some v => exact ih.cons₂ p.1

theorem align_keys_sorted (c1 c2 : Col) (hs1 : (keysOf c1).Pairwise (· < ·)) :
    ((align c1 c2).map Prod.fst).Pairwise (· < ·) :=
  hs1.sublist ((align_keys_sublist c1 c2).trans (dataKeys_sublist c1))

theorem mem_align_keys (c1 c2 : Col) (d : Date) :
    d ∈ (align c1 c2).map Prod.fst ↔
      ((∃ x, (d, some x) ∈ c1) ∧ ∃ y, (d, some y) ∈ c2) := by
  rw [List.mem_map]
  constructor
  · rintro ⟨r, hr, rfl⟩
    rw [mem_align] at hr
    exact ⟨⟨r.2.1, (mem_dropNone c1 r.1 r.2.1).mp hr.1⟩,
      ⟨r.2.2, (mem_dropNone c2 r.1 r.2.2).mp (lookup_some_mem hr.2)⟩⟩
  · rintro ⟨⟨x, hx⟩, ⟨y, hy⟩⟩
    have hk : d ∈ (dropNone c2).map Prod.fst :=
      List.mem_map_of_mem Prod.fst ((mem_dropNone c2 d y).mpr hy)
    obtain ⟨y0, hy0⟩ := Option.isSome_iff_exists.mp (lookup_isSome_iff.mpr hk)
    exact ⟨(d, x, y0), mem_align.mpr ⟨(mem_dropNone c1 d x).mpr hx, hy0⟩, rfl⟩

theorem sorted_eq_of_mem_iff : ∀ {l1 l2 : List Date}, l1.Pairwise (· < ·) →
    l2.Pairwise (· < ·) → (∀ d, d ∈ l1 ↔ d ∈ l2) → l1 = l2 := by
  intro l1
  induction l1 with
  | nil =>
    intro l2 _ _ hm
    symm
    rw [List.eq_nil_iff_forall_not_mem]
    intro d hd
    exact absurd ((hm d).mpr hd) (List.not_mem_nil d)
  | cons a t ih =>
    intro l2 h1 h2 hm
    cases l2 with
    | nil => exact absurd ((hm a).mp (List.mem_cons_self a t)) (List.not_mem_nil a)
    | cons b u =>
      have hab : a = b := by
        rcases List.mem_cons.mp ((hm a).mp (List.mem_cons_self a t)) with h | h
        · exact h
        · have hba : b < a := (List.pairwise_cons.mp h2).1 a h
          rcases List.mem_cons.mp ((hm b).mpr (List.mem_cons_self b u)) with h4 | h4
          · exact h4.symm
          · have hab2 : a < b := (List.pairwise_cons.mp h1).1 b h4
            exact absurd (lt_trans hba hab2) (lt_irrefl b)
      subst hab
      have httail : ∀ d, d ∈ t ↔ d ∈ u := by
        intro d
        constructor
        · intro hd
          rcases List.mem_cons.mp ((hm d).mp (List.mem_cons_of_mem a hd)) with rfl | h
          · exact absurd ((List.pairwise_cons.mp h1).1 d hd) (lt_irrefl d)
          · exact h
        · intro hd
          rcases List.mem_cons.mp ((hm d).mpr (List.mem_cons_of_mem a hd)) with rfl | h
          · exact absurd ((List.pairwise_cons.mp h2).1 d hd) (lt_irrefl d)
          · exact h
      rw [ih (List.pairwise_cons.mp h1).2 (List.pairwise_cons.mp h2).2 httail]

theorem lookup_cons_ne {β : Type} (a : Date) (b : β) (t : List (Date × β)) (d : Date)
    (h : d ≠ a) : ((a, b) :: t).lookup d = t.lookup d := by
  simp only [List.lookup]
  rw [show (d == a) = false from beq_eq_false_iff_ne.mpr h]

theorem filterMap_align_eq (l : List (Date × ℚ)) (c2 : Col)
    (hnd : (l.map Prod.fst).Nodup) :
    l.filterMap (fun p => ((dropNone c2).lookup p.1).map (fun y => (p.1, p.2, y))) =
      ((l.map Prod.fst).filter (fun d => ((dropNone c2).lookup d).isSome)).map
        (fun d => (d, ((l.lookup d).getD 0), (((dropNone c2).lookup d).getD 0))) := by
  induction l with
  | nil => simp
  | cons p t ih =>
    cases p with
    | mk a v =>
      simp only [List.map_cons, List.nodup_cons] at hnd
      have htail := ih hnd.2
      simp only [List.filterMap_cons, List.map_cons, List.filter_cons]
      have hsame : ((t.map Prod.fst).filter (fun d => ((dropNone c2).lookup d).isSome)).map
            (fun d => (d, ((((a, v) :: t).lookup d).getD 0),
              (((dropNone c2).lookup d).getD 0))) =
          ((t.map Prod.fst).filter (fun d => ((dropNone c2).lookup d).isSome)).map
            (fun d => (d, ((t.lookup d).getD 0), (((dropNone c2).lookup d).getD 0))) := by
        apply List.map_congr_left
        intro d hd
        have hdt : d ∈ t.map Prod.fst := List.mem_of_mem_filter hd
        have hda : d ≠ a := fun he => hnd.1 (he ▸ hdt)
        rw [lookup_cons_ne a v t d hda]
      cases hc : (dropNone c2).lookup a with
      | none =>
        simp only [hc, Option.map_none', Option.isSome_none, Bool.false_eq_true, if_false]
        rw [hsame]
        exact htail
      | some y =>
        simp only [hc, Option.map_some', Option.isSome_some, if_true, List.map_cons]
        rw [hsame, htail]
        congr 1
        have hla : (((a, v) :: t).lookup a) = some v := by simp [List.lookup]
        rw [hla]
        rfl

theorem dataKeys_nodup (c : Col) (hs : (keysOf c).Pairwise (· < ·)) :
    (dataKeys c).Nodup := by
  have hp : (dataKeys c).Pairwise (· < ·) := hs.sublist (dataKeys_sublist c)
  exact hp.imp (fun h => Nat.ne_of_lt h)

theorem align_eq_canonical (c1 c2 : Col) (hnd : (dataKeys c1).Nodup) :
    align c1 c2 =
      ((dataKeys c1).filter (fun d => (((dropNone c2).lookup d).isSome : Bool))).map
        (fun d => (d, (((dropNone c1).lookup d).getD 0),
          (((dropNone c2).lookup d).getD 0))) := by
  unfold align dataKeys at *
  exact filterMap_align_eq (dropNone c1) c2 hnd

theorem align_keys_filter_comm (c1 c2 : Col)
    (hs1 : (keysOf c1).Pairwise (· < ·)) (hs2 : (keysOf c2).Pairwise (· < ·)) :
    (dataKeys c2).filter (fun d => (((dropNone c1).lookup d).isSome : Bool)) =
      (dataKeys c1).filter (fun d => (((dropNone c2).lookup d).isSome : Bool)) := by
  apply sorted_eq_of_mem_iff
  · exact (hs2.sublist (dataKeys_sublist c2)).filter _
  · exact (hs1.sublist (dataKeys_sublist c1)).filter _
  · intro d
    simp only [List.mem_filter]
    unfold dataKeys
    rw [lookup_isSome_iff, lookup_isSome_iff]
    exact and_comm

theorem align_swap (c1 c2 : Col)
    (hs1 : (keysOf c1).Pairwise (· < ·)) (hs2 : (keysOf c2).Pairwise (· < ·)) :
    align c2 c1 = (align c1 c2).map (fun r => (r.1, r.2.2, r.2.1)) := by
  rw [align_eq_canonical c2 c1 (dataKeys_nodup c2 hs2),
    align_eq_canonical c1 c2 (dataKeys_nodup c1 hs1),
    align_keys_filter_comm c1 c2 hs1 hs2, List.map_map]
  rfl

/-! ### Negation and commutation of the statistics -/

theorem sum_map_neg_q (l : List ℚ) : (l.map (fun q => -q)).sum = -l.sum := by
  induction l with
  | nil => simp
  | cons a t ih =>
    simp [ih]
    ring

theorem meanQ_neg (l : List ℚ) : meanQ (l.map (fun q => -q)) = -meanQ l := by
  unfold meanQ
  rw [sum_map_neg_q, List.length_map, neg_div]

theorem svarQ_neg (l : List ℚ) : svarQ (l.map (fun q => -q)) = svarQ l := by
  unfold svarQ
  rw [meanQ_neg, List.length_map, List.map_map]
  congr 1
  congr 1
  apply List.map_congr_left
  intro x _
  simp only [Function.comp]
  ring

theorem stdPF_neg (l : List ℚ) : stdPF (l.map (fun q => -q)) = stdPF l := by
  unfold stdPF varPF
  rw [svarQ_neg, List.length_map]

theorem fdiv_neg_num (x : ℝ) (q : PF) : fdiv (PF.val (-x)) q = fneg (fdiv (PF.val x) q) := by
  cases q with
  | nan => rfl
  | inf p =>
    simp only [fdiv_val_inf, fneg_val, neg_zero]
  | val b =>
    by_cases hb : b = 0
    · subst hb
      rw [fdiv_val_val, fdiv_val_val]
      simp only [if_pos rfl]
      by_cases hx : x = 0
      · subst hx
        simp
      · have hnx : ¬(-x = 0) := by simpa using hx
        rw [if_neg hnx, if_neg hx]
        rcases lt_trichotomy x 0 with h | h | h
        · rw [if_pos (by linarith : (0 : ℝ) < -x), if_neg (by linarith : ¬(0 : ℝ) < x)]
          rfl
        · exact absurd h hx
        · rw [if_neg (by linarith : ¬(0 : ℝ) < -x), if_pos h]
          rfl
    · rw [fdiv_val_val_of_ne _ _ hb, fdiv_val_val_of_ne _ _ hb, fneg_val, neg_div]

theorem zScores_neg (l : List ℚ) :
    zScores (l.map (fun q => -q)) = (zScores l).map fneg := by
  unfold zScores
  rw [meanQ_neg, stdPF_neg, List.map_map, List.map_map]
  apply List.map_congr_left
  intro s _
  simp only [Function.comp]
  have hcast : ((-s - -meanQ l : ℚ) : ℝ) = -((s - meanQ l : ℚ) : ℝ) := by
    push_cast
    ring
  rw [hcast, fdiv_neg_num]

theorem spread_map_swap (df : List (Date × ℚ × ℚ)) :
    spreadOfTable (df.map (fun r => (r.1, r.2.2, r.2.1))) =
      (spreadOfTable df).map (fun q => -q) := by
  unfold spreadOfTable
  rw [List.map_map, List.map_map]
  apply List.map_congr_left
  intro r _
  simp only [Function.comp]
  ring

theorem latestZ_map_swap (df : List (Date × ℚ × ℚ)) :
    latestZ (df.map (fun r => (r.1, r.2.2, r.2.1))) = fneg (latestZ df) := by
  unfold latestZ
  rw [spread_map_swap, zScores_neg, List.getLast?_map]
  cases hg : (zScores (spreadOfTable df)).getLast? with
  | none => simp
  | some z => rfl

theorem zip_prod_sum_comm (xs ys : List ℚ) (mx my : ℚ) :
    (List.zipWith (fun x y => (x - mx) * (y - my)) xs ys).sum =
      (List.zipWith (fun y x => (y - my) * (x - mx)) ys xs).sum := by
  induction xs generalizing ys with
  | nil => cases ys <;> simp
  | cons a t ih =>
    cases ys with
    | nil => simp
    | cons b u =>
      simp only [List.zipWith_cons_cons, List.sum_cons]
      rw [ih u, mul_comm]

theorem scovQ_comm (xs ys : List ℚ) (hlen : xs.length = ys.length) :
    scovQ xs ys = scovQ ys xs := by
  unfold scovQ
  rw [hlen]
  congr 1
  exact zip_prod_sum_comm xs ys (meanQ xs) (meanQ ys)

theorem covPF_comm (xs ys : List ℚ) (hlen : xs.length = ys.length) :
    covPF xs ys = covPF ys xs := by
  unfold covPF
  rw [scovQ_comm xs ys hlen, hlen]

theorem fmul_comm (a b : PF) : fmul a b = fmul b a := by
  cases a with
  | nan => cases b <;> rfl
  | inf p =>
    cases b with
    | nan => rfl
    | inf q => cases p <;> cases q <;> rfl
    | val x => rfl
  | val x =>
    cases b with
    | nan => rfl
    | inf q => rfl
    | val y => rw [fmul_val_val, fmul_val_val, mul_comm]

theorem corrPF_comm (xs ys : List ℚ) (hlen : xs.length = ys.length) :
    corrPF ys xs = corrPF xs ys := by
  unfold corrPF
  rw [covPF_comm xs ys hlen, fmul_comm (stdPF ys) (stdPF xs)]

theorem signal_swap (a b : String) (z : PF) (hinf : z.isInf = false) :
    (signalFromZ a b z = none ↔ signalFromZ b a (fneg z) = none)
    ∧ (∀ x y : String, recommendsShortLong a b (signalFromZ a b z) x y ↔
        recommendsShortLong b a (signalFromZ b a (fneg z)) x y) := by
  cases z with
  | nan =>
    rw [fneg_nan, signal_nan, signal_nan]
    exact ⟨Iff.rfl, fun x y => by simp [recommendsShortLong]⟩
  | inf p => simp [PF.isInf] at hinf
  | val v =>
    rw [fneg_val]
    by_cases h2 : |v| ≤ 2
    · have h2n : |(-v)| ≤ 2 := by rwa [abs_neg]
      rw [signal_val_le a b v h2, signal_val_le b a (-v) h2n]
      exact ⟨Iff.rfl, fun x y => by simp [recommendsShortLong]⟩
    · rw [not_le] at h2
      rcases lt_abs.mp h2 with hgt | hlt
      · rw [signal_val_gt a b v hgt, signal_val_lt b a (-v) (by linarith)]
        constructor
        · constructor <;> (intro hc; exact absurd hc (by simp))
        · intro x y
          unfold recommendsShortLong
          constructor
          · rintro (⟨hs, rfl, rfl⟩ | ⟨hs, hx, hy⟩)
            · exact Or.inr ⟨rfl, rfl, rfl⟩
            · exact absurd (Option.some.inj hs) (shortLong_ne a b a b)
          · rintro (⟨hs, hx, hy⟩ | ⟨hs, rfl, rfl⟩)
            · exact absurd (Option.some.inj hs).symm (shortLong_ne b a b a)
            · exact Or.inl ⟨rfl, rfl, rfl⟩
      · rw [signal_val_lt a b v (by linarith), signal_val_gt b a (-v) (by linarith)]
        constructor
        · constructor <;> (intro hc; exact absurd hc (by simp))
        · intro x y
          unfold recommendsShortLong
          constructor
          · rintro (⟨hs, hx, hy⟩ | ⟨hs, rfl, rfl⟩)
            · exact absurd (Option.some.inj hs).symm (shortLong_ne a b a b)
            · exact Or.inl ⟨rfl, rfl, rfl⟩
          · rintro (⟨hs, rfl, rfl⟩ | ⟨hs, hx, hy⟩)
            · exact Or.inr ⟨rfl, rfl, rfl⟩
            · exact absurd (Option.some.inj hs) (shortLong_ne b a b a)

theorem statsStage_corrOf (s1 s2 : String) (df : List (Date × ℚ × ℚ)) (h : s1 ≠ s2) :
    (statsStage s1 s2 df).corrOf = coerceNaN (corrPF (col1 df) (col2 df)) := by
  rw [statsStage_eq s1 s2 df h]
  rfl

theorem statsStage_spreadOf (s1 s2 : String) (df : List (Date × ℚ × ℚ)) (h : s1 ≠ s2) :
    (statsStage s1 s2 df).spreadOf = spreadOfTable df := by
  rw [statsStage_eq s1 s2 df h]
  rfl

theorem statsStage_zOf (s1 s2 : String) (df : List (Date × ℚ × ℚ)) (h : s1 ≠ s2) :
    (statsStage s1 s2 df).zOf = zScores (spreadOfTable df) := by
  rw [statsStage_eq s1 s2 df h]
  rfl

theorem statsStage_datesOf (s1 s2 : String) (df : List (Date × ℚ × ℚ)) (h : s1 ≠ s2) :
    (statsStage s1 s2 df).datesOf = df.map (fun r => fmtDate r.1) := by
  rw [statsStage_eq s1 s2 df h]
  rfl

theorem statsStage_sigOf (s1 s2 : String) (df : List (Date × ℚ × ℚ)) (h : s1 ≠ s2) :
    (statsStage s1 s2 df).sigOf = signalFromZ s1 s2 (latestZ df) := by
  rw [statsStage_eq s1 s2 df h]
  rfl

theorem col1_map_swap (df : List (Date × ℚ × ℚ)) :
    col1 (df.map (fun r => (r.1, r.2.2, r.2.1))) = col2 df := by
  unfold col1 col2
  rw [List.map_map]
  rfl

theorem col2_map_swap (df : List (Date × ℚ × ℚ)) :
    col2 (df.map (fun r => (r.1, r.2.2, r.2.1))) = col1 df := by
  unfold col1 col2
  rw [List.map_map]
  rfl

/-- C9 counterexample: with the same ticker twice and a non-empty fetched
series all of whose values are missing, the endpoint answers not-found
(the aligned table is empty), not the internal error the claim states
for every non-empty series. -/
theorem all_missing_not_internal :
    selectPrice (allMissingFetch "AAA" "1mo") "AAA" =
        Except.ok (Selected.series [(20240101, none)])
    ∧ ([((20240101 : Date), (none : Option ℚ))] ≠ [])
    ∧ (compareStocks allMissingFetch sameReq).isInternalError = false
    ∧ (compareStocks allMissingFetch sameReq).isNotFound = true :=
  ⟨rfl, by decide, rfl, rfl⟩

/-! ### Claims C7, C8 and C10 -/

/-- C7: for sorted input series, the aligned table consists exactly of
the dates carrying a non-missing value in both series, in chronological
order, with each row taking both values directly from the inputs (no
interpolation); an empty intersection yields the not-found response
whose message contains the phrase about overlapping data. -/
theorem alignment_spec (c1 c2 : Col)
    (hs1 : (keysOf c1).Pairwise (· < ·)) ( _hs2 : (keysOf c2).Pairwise (· < ·)) :
    ((align c1 c2).map Prod.fst).Pairwise (· < ·)
    ∧ (∀ d : Date, d ∈ (align c1 c2).map Prod.fst ↔
        ((∃ x, (d, some x) ∈ c1) ∧ ∃ y, (d, some y) ∈ c2))
    ∧ (∀ r ∈ align c1 c2, (r.1, some r.2.1) ∈ c1 ∧ (r.1, some r.2.2) ∈ c2)
    ∧ (align c1 c2 = [] → ∀ s1 s2 : String, c1 ≠ [] → c2 ≠ [] →
        afterSelect s1 s2 (Selected.series c1) (Selected.series c2) =
          Resp.notFound "No overlapping data after alignment")
    ∧ "No overlapping data after alignment" =
        "No overlapping data" ++ " after alignment" := by
  refine ⟨align_keys_sorted c1 c2 hs1, mem_align_keys c1 c2, ?_, ?_, rfl⟩
  · intro r hr
    rw [mem_align] at hr
    exact ⟨(mem_dropNone c1 r.1 r.2.1).mp hr.1,
      (mem_dropNone c2 r.1 r.2.2).mp (lookup_some_mem hr.2)⟩
  · intro hal s1 s2 h1 h2
    simp [afterSelect, h1, h2, hal]

/-- Witness for C7 at two concrete series overlapping in one date. -/
theorem alignment_spec_witness :
    ((keysOf exCol).Pairwise (· < ·)
      ∧ (keysOf [((20240102 : Date), some (5 : ℚ)), (20240103, some 6)]).Pairwise (· < ·))
    ∧ (((align exCol [(20240102, some 5), (20240103, some 6)]).map Prod.fst).Pairwise (· < ·)
      ∧ (∀ d : Date, d ∈ (align exCol [(20240102, some 5), (20240103, some 6)]).map Prod.fst ↔
          ((∃ x, (d, some x) ∈ exCol)
            ∧ ∃ y, (d, some y) ∈ [((20240102 : Date), some (5 : ℚ)), (20240103, some 6)]))
      ∧ (∀ r ∈ align exCol [(20240102, some 5), (20240103, some 6)],
          (r.1, some r.2.1) ∈ exCol
            ∧ (r.1, some r.2.2) ∈ [((20240102 : Date), some (5 : ℚ)), (20240103, some 6)])
      ∧ (align exCol [(20240102, some 5), (20240103, some 6)] = [] → ∀ s1 s2 : String,
          exCol ≠ [] → [((20240102 : Date), some (5 : ℚ)), (20240103, some 6)] ≠ [] →
          afterSelect s1 s2 (Selected.series exCol)
            (Selected.series [(20240102, some 5), (20240103, some 6)]) =
            Resp.notFound "No overlapping data after alignment")
      ∧ "No overlapping data after alignment" =
          "No overlapping data" ++ " after alignment") :=
  ⟨⟨by decide, by decide⟩,
    alignment_spec exCol [(20240102, some 5), (20240103, some 6)] (by decide) (by decide)⟩

theorem pickUnique_series (k : String) (l : List Col) (c : Col)
    (h : pickUnique k l = Except.ok (Selected.series c)) : l = [c] := by
  cases l with
  | nil => simp [pickUnique] at h
  | cons x t =>
    cases t with
    | nil =>
      simp only [pickUnique, Except.ok.injEq, Selected.series.injEq] at h
      rw [h]
    | cons y u => simp [pickUnique] at h

theorem pickMulti_series (f t : String) (cols : List (String × List (String × Col))) (c : Col)
    (h : pickMulti f t cols = Except.ok (Selected.series c)) :
    ∃ sub, cols.lookup f = some sub ∧ matchesOf t sub = [c] := by
  unfold pickMulti at h
  cases hl : cols.lookup f with
  | none =>
    rw [hl] at h
    exact absurd h (by simp)
  | some sub =>
    rw [hl] at h
    exact ⟨sub, rfl, pickUnique_series t _ c h⟩

/-- C8: whenever the normalizer returns a price series, that series is
the unique column stored under the adjusted-close field when that field
is present among the level-0 labels (below the ticker key for a
two-level result), and the unique column under the close field
otherwise — never any other column. -/
theorem selection_preference (r : RawFetchResult) (t : String) (c : Col)
    (h : selectPrice r t = Except.ok (Selected.series c)) :
    ("Adj Close" ∈ fieldsOf r → columnAt r "Adj Close" t = [c])
    ∧ ("Adj Close" ∉ fieldsOf r → columnAt r "Close" t = [c]) := by
  cases r with
  | single cols =>
    by_cases hadj : "Adj Close" ∈ cols.map Prod.fst
    · refine ⟨fun _ => ?_, fun hn => absurd hadj hn⟩
      simp only [selectPrice] at h
      rw [if_pos hadj] at h
      exact pickUnique_series _ _ _ h
    · refine ⟨fun hmem => absurd hmem hadj, fun _ => ?_⟩
      simp only [selectPrice] at h
      rw [if_neg hadj] at h
      exact pickUnique_series _ _ _ h
  | multi cols =>
    by_cases hadj : "Adj Close" ∈ cols.map Prod.fst
    · refine ⟨fun _ => ?_, fun hn => absurd hadj hn⟩
      simp only [selectPrice] at h
      rw [if_pos hadj] at h
      obtain ⟨sub, hl, hm⟩ := pickMulti_series _ _ _ _ h
      show ((cols.lookup "Adj Close").map (matchesOf t)).getD [] = [c]
      rw [hl]
      simpa using hm
    · refine ⟨fun hmem => absurd hmem hadj, fun _ => ?_⟩
      simp only [selectPrice] at h
      rw [if_neg hadj] at h
      obtain ⟨sub, hl, hm⟩ := pickMulti_series _ _ _ _ h
      show ((cols.lookup "Close").map (matchesOf t)).getD [] = [c]
      rw [hl]
      simpa using hm

/-- Witness for C8 at a concrete two-level fetch result. -/
theorem selection_preference_witness :
    (selectPrice (RawFetchResult.multi [("Adj Close", [("AAA", exCol)])]) "AAA" =
        Except.ok (Selected.series exCol))
    ∧ (("Adj Close" ∈ fieldsOf (RawFetchResult.multi [("Adj Close", [("AAA", exCol)])]) →
        columnAt (RawFetchResult.multi [("Adj Close", [("AAA", exCol)])]) "Adj Close" "AAA"
          = [exCol])
      ∧ ("Adj Close" ∉ fieldsOf (RawFetchResult.multi [("Adj Close", [("AAA", exCol)])]) →
        columnAt (RawFetchResult.multi [("Adj Close", [("AAA", exCol)])]) "Close" "AAA"
          = [exCol])) :=
  ⟨rfl, selection_preference (RawFetchResult.multi [("Adj Close", [("AAA", exCol)])])
    "AAA" exCol rfl⟩

/-- C10: for distinct tickers with fixed fetched series (sorted date
indices), swapping the two tickers of the request leaves the correlation
and dates unchanged, negates the spread and z-score sequences pointwise,
and yields the economically identical signal. -/
theorem swap_symmetry (fetch : String → String → RawFetchResult) (a b p : String)
    (c1 c2 : Col) (hab : a ≠ b)
    (ha : (a == "") = false) (hb : (b == "") = false) (hp : p ∈ validPeriods)
    (hsel1 : selectPrice (fetch a p) a = Except.ok (Selected.series c1))
    (hsel2 : selectPrice (fetch b p) b = Except.ok (Selected.series c2))
    (hs1 : (keysOf c1).Pairwise (· < ·)) (hs2 : (keysOf c2).Pairwise (· < ·)) :
    (compareStocks fetch { stock1 := some b, stock2 := some a, period := some p }).corrOf =
        (compareStocks fetch { stock1 := some a, stock2 := some b, period := some p }).corrOf
    ∧ (compareStocks fetch { stock1 := some b, stock2 := some a, period := some p }).spreadOf =
        (compareStocks fetch
          { stock1 := some a, stock2 := some b, period := some p }).spreadOf.map (fun q => -q)
    ∧ (compareStocks fetch { stock1 := some b, stock2 := some a, period := some p }).zOf =
        (compareStocks fetch
          { stock1 := some a, stock2 := some b, period := some p }).zOf.map fneg
    ∧ (compareStocks fetch { stock1 := some b, stock2 := some a, period := some p }).datesOf =
        (compareStocks fetch { stock1 := some a, stock2 := some b, period := some p }).datesOf
    ∧ ((compareStocks fetch { stock1 := some a, stock2 := some b, period := some p }).sigOf =
          none ↔
        (compareStocks fetch { stock1 := some b, stock2 := some a, period := some p }).sigOf =
          none)
    ∧ (∀ x y : String,
        recommendsShortLong a b
            (compareStocks fetch
              { stock1 := some a, stock2 := some b, period := some p }).sigOf x y ↔
          recommendsShortLong b a
            (compareStocks fetch
              { stock1 := some b, stock2 := some a, period := some p }).sigOf x y) := by
  have hba : b ≠ a := fun he => hab he.symm
  have hpne : (p == "") = false := by
    apply beq_eq_false_iff_ne.mpr
    intro he
    subst he
    revert hp
    decide
  have e1 : compareStocks fetch { stock1 := some a, stock2 := some b, period := some p } =
      afterSelect a b (Selected.series c1) (Selected.series c2) := by
    simp [compareStocks, falsy, ha, hb, hpne, hp, hsel1, hsel2]
  have e2 : compareStocks fetch { stock1 := some b, stock2 := some a, period := some p } =
      afterSelect b a (Selected.series c2) (Selected.series c1) := by
    simp [compareStocks, falsy, ha, hb, hpne, hp, hsel1, hsel2]
  rw [e1, e2]
  by_cases hc1 : c1 = []
  · simp [afterSelect, hc1, Resp.corrOf, Resp.spreadOf, Resp.zOf, Resp.datesOf, Resp.sigOf,
      recommendsShortLong]
  · by_cases hc2 : c2 = []
    · simp [afterSelect, hc1, hc2, Resp.corrOf, Resp.spreadOf, Resp.zOf, Resp.datesOf,
        Resp.sigOf, recommendsShortLong]
    · by_cases hal : align c1 c2 = []
      · have hal2 : align c2 c1 = [] := by
          rw [align_swap c1 c2 hs1 hs2, hal]
          rfl
        simp [afterSelect, hc1, hc2, hal, hal2, Resp.corrOf, Resp.spreadOf, Resp.zOf,
          Resp.datesOf, Resp.sigOf, recommendsShortLong]
      · have hal2 : align c2 c1 ≠ [] := by
          rw [align_swap c1 c2 hs1 hs2]
          simpa using hal
        have f1 : afterSelect a b (Selected.series c1) (Selected.series c2) =
            statsStage a b (align c1 c2) := by
          simp [afterSelect, hc1, hc2, hal]
        have f2 : afterSelect b a (Selected.series c2) (Selected.series c1) =
            statsStage b a (align c2 c1) := by
          simp [afterSelect, hc1, hc2, hal2]
        rw [f1, f2, align_swap c1 c2 hs1 hs2]
        have hlenc : (col1 (align c1 c2)).length = (col2 (align c1 c2)).length := by
          rw [col1_length, col2_length]
        have hlz : latestZ ((align c1 c2).map (fun r => (r.1, r.2.2, r.2.1))) =
            fneg (latestZ (align c1 c2)) := latestZ_map_swap (align c1 c2)
        refine ⟨?_, ?_, ?_, ?_, ?_, ?_⟩
        · rw [statsStage_corrOf b a _ hba, statsStage_corrOf a b _ hab, col1_map_swap,
            col2_map_swap, corrPF_comm (col1 (align c1 c2)) (col2 (align c1 c2)) hlenc]
        · rw [statsStage_spreadOf b a _ hba, statsStage_spreadOf a b _ hab, spread_map_swap]
        · rw [statsStage_zOf b a _ hba, statsStage_zOf a b _ hab, spread_map_swap, zScores_neg]
        · rw [statsStage_datesOf b a _ hba, statsStage_datesOf a b _ hab, List.map_map]
          rfl
        · rw [statsStage_sigOf b a _ hba, statsStage_sigOf a b _ hab, hlz]
          exact (signal_swap a b (latestZ (align c1 c2)) (latestZ_not_inf _)).1
        · rw [statsStage_sigOf b a _ hba, statsStage_sigOf a b _ hab, hlz]
          exact (signal_swap a b (latestZ (align c1 c2)) (latestZ_not_inf _)).2

/-- Witness for C10 at the worked-example oracle with two distinct tickers. -/
theorem swap_symmetry_witness :
    ("AAA" ≠ "BBB" ∧ ("AAA" == "") = false ∧ ("BBB" == "") = false ∧ "1mo" ∈ validPeriods
      ∧ selectPrice (exFetch "AAA" "1mo") "AAA" = Except.ok (Selected.series exCol)
      ∧ selectPrice (exFetch "BBB" "1mo") "BBB" = Except.ok (Selected.series exCol)
      ∧ (keysOf exCol).Pairwise (· < ·))
    ∧ ((compareStocks exFetch
          { stock1 := some "BBB", stock2 := some "AAA", period := some "1mo" }).corrOf =
        (compareStocks exFetch
          { stock1 := some "AAA", stock2 := some "BBB", period := some "1mo" }).corrOf
      ∧ (compareStocks exFetch
          { stock1 := some "BBB", stock2 := some "AAA", period := some "1mo" }).spreadOf =
          (compareStocks exFetch
            { stock1 := some "AAA", stock2 := some "BBB", period := some "1mo" }).spreadOf.map
            (fun q => -q)
      ∧ (compareStocks exFetch
          { stock1 := some "BBB", stock2 := some "AAA", period := some "1mo" }).zOf =
          (compareStocks exFetch
            { stock1 := some "AAA", stock2 := some "BBB", period := some "1mo" }).zOf.map fneg
      ∧ (compareStocks exFetch
          { stock1 := some "BBB", stock2 := some "AAA", period := some "1mo" }).datesOf =
          (compareStocks exFetch
            { stock1 := some "AAA", stock2 := some "BBB", period := some "1mo" }).datesOf
      ∧ ((compareStocks exFetch
            { stock1 := some "AAA", stock2 := some "BBB", period := some "1mo" }).sigOf =
            none ↔
          (compareStocks exFetch
            { stock1 := some "BBB", stock2 := some "AAA", period := some "1mo" }).sigOf = none)
      ∧ (∀ x y : String,
          recommendsShortLong "AAA" "BBB"
              (compareStocks exFetch
                { stock1 := some "AAA", stock2 := some "BBB", period := some "1mo" }).sigOf
              x y ↔
            recommendsShortLong "BBB" "AAA"
              (compareStocks exFetch
                { stock1 := some "BBB", stock2 := some "AAA", period := some "1mo" }).sigOf
              x y)) :=
  ⟨⟨by decide, rfl, rfl, by decide, rfl, rfl, by decide⟩,
    swap_symmetry exFetch "AAA" "BBB" "1mo" exCol exCol (by decide) rfl rfl (by decide)
      rfl rfl (by decide) (by decide)⟩

end StockCompare
